import Mathlib

/-!
Shallow embedding of the rustus storage backend (`NullStorage`, the discard
backend, from `src/data_storage/impls/null_storage.rs`) and the capability
endpoint (`server_info`, from `src/protocol/core/server_info.rs`).

The filesystem is modelled as explicit state: a set of existing directories,
an association list from file paths to byte contents, and an association
list giving the canonical (absolute) form of a path, standing for the
OS-level `canonicalize` call at the moment it is made.  Every backend
operation threads this state and returns `Except RustusError`.
-/

namespace Rustus

/-- Kinds of `std::io::Error` that the modelled code can produce:
`NotFound` from `canonicalize` on a missing path, `AlreadyExists` from
`OpenOptions::create_new` on an occupied path. -/
inductive IoKind where
  | notFound
  | alreadyExists
  deriving DecidableEq

/-- The variants of `RustusError` the embedded code uses: `FileNotFound`
(precondition / not-found errors), `UnableToRemove` (removal I/O failure),
and a wrapped I/O error (the `From<std::io::Error>` conversion applied by
the `?` operator). -/
inductive RustusError where
  | FileNotFound
  | UnableToRemove (path : String)
  | ioError (kind : IoKind)
  deriving DecidableEq

/-- Upload record metadata (`FileInfo`): identity, optional resolved storage
path, and the logical filename used for the content-disposition header. -/
structure FileInfo where
  id : String
  path : Option String
  filename : String
  deriving DecidableEq

/-- Modelled from the spec: `FileInfo::get_filename` is not under `src/`;
the spec says delivery responses set a disposition header derived from the
upload record's logical filename, so the accessor returns that filename. -/
def FileInfo.get_filename (f : FileInfo) : String := f.filename

/-- Filesystem state: existing directories, existing files with their byte
contents, and the canonicalization map (path to its absolute canonical form,
as the OS would resolve it at the time of the call). -/
structure FS where
  dirs : List String
  files : List (String × List Nat)
  canon : List (String × String)
  deriving DecidableEq

/-- Contents of the file at path `p`, if a file exists there. -/
def FS.fileContents (fs : FS) (p : String) : Option (List Nat) :=
  fs.files.lookup p

/-- A file exists at path `p`. -/
def FS.isFile (fs : FS) (p : String) : Bool :=
  (fs.fileContents p).isSome

/-- A directory exists at path `p`. -/
def FS.isDir (fs : FS) (p : String) : Bool :=
  fs.dirs.contains p

/-- `Path::exists`: some filesystem object (file or directory) is at `p`. -/
def FS.pathExists (fs : FS) (p : String) : Bool :=
  fs.isFile p || fs.isDir p

/-- `DirBuilder::new().recursive(true).create(dir)`: recursive directory
creation, idempotent when the directory already exists. -/
def FS.mkdirRecursive (fs : FS) (dir : String) : FS :=
  if fs.dirs.contains dir then fs else { fs with dirs := dir :: fs.dirs }

/-- `Path::canonicalize`: resolve to the absolute canonical form recorded in
the current state; fails with an I/O `NotFound` error when the OS cannot
resolve the path. -/
def FS.canonicalize (fs : FS) (p : String) : Except RustusError String :=
  match fs.canon.lookup p with
  | some c => .ok c
  | none => .error (.ioError .notFound)

/-- Remove the file at path `p` from the state (`tokio::fs::remove_file`). -/
def FS.removeFile (fs : FS) (p : String) : FS :=
  { fs with files := fs.files.filter (fun e => e.1 != p) }

/-- The discard backend: a base data directory and a directory-structure
template string. -/
structure NullStorage where
  data_dir : String
  dir_struct : String
  deriving DecidableEq

/-- `NullStorage::new`. -/
def NullStorage.new (data_dir : String) (dir_struct : String) : NullStorage :=
  { data_dir := data_dir, dir_struct := dir_struct }

/-- `PathBuf::join` with a relative segment. -/
def pathJoin (base seg : String) : String := base ++ "/" ++ seg

/-- `NullStorage::data_file_path`: canonicalize the base data directory (on
every call — the canonical form is read from the current state, never
cached), join the templated segment produced by `substr_now` (the external
path-resolver collaborator, passed as an opaque function), recursively
create that directory, and join the file id. -/
def NullStorage.data_file_path (s : NullStorage) (sub : String → String)
    (fs : FS) (file_id : String) : Except RustusError (FS × String) :=
  match fs.canonicalize s.data_dir with
  | .error e => .error e
  | .ok c =>
    let dir := pathJoin c (sub s.dir_struct)
    .ok (fs.mkdirRecursive dir, pathJoin dir file_id)

/-- `NullStorage::prepare`: create the base data directory if nothing exists
at its path yet; otherwise do nothing. -/
def NullStorage.prepare (s : NullStorage) (fs : FS) :
    Except RustusError (FS × Unit) :=
  if fs.pathExists s.data_dir then .ok (fs, ())
  else .ok ({ fs with dirs := s.data_dir :: fs.dirs }, ())

/-- Modelled from the spec: `HeaderMapExt::generate_disposition` is not
under `src/`; the spec says the delivery response carries a disposition
header derived from the logical filename. -/
def generate_disposition (filename : String) : String :=
  "attachment; filename=" ++ filename

/-- A delivery response: body bytes and headers. -/
structure Response where
  body : List Nat
  headers : List (String × String)
  deriving DecidableEq

/-- `NullStorage::get_contents`: fail with `FileNotFound` when the record
has no storage path; otherwise return an empty-body response with a
content-disposition header derived from the record's logical filename.
The filesystem state is read and written nowhere, so it is returned
unchanged. -/
def NullStorage.get_contents (fs : FS) (file_info : FileInfo) :
    Except RustusError (FS × Response) :=
  match file_info.path with
  | none => .error .FileNotFound
  | some _ =>
    .ok (fs, { body := [],
               headers := [("Content-Disposition",
                            generate_disposition file_info.get_filename)] })

/-- `NullStorage::add_bytes`: clear the byte buffer and succeed; the record
(and in particular its storage path) is never inspected and the filesystem
is untouched. -/
def NullStorage.add_bytes (fs : FS) (_file_info : FileInfo)
    (_bytes : List Nat) : Except RustusError (FS × Unit) :=
  .ok (fs, ())

/-- `NullStorage::create_file`: resolve the data file path, then open with
`create_new(true)` — an exclusive create that fails with an `AlreadyExists`
I/O error when any object is already at the path, and (because `create_new`
overrides `create`/`truncate`) never truncates an existing file.  On
success a fresh empty file appears at the resolved path, which is returned
as a string. -/
def NullStorage.create_file (s : NullStorage) (sub : String → String)
    (fs : FS) (file_info : FileInfo) : Except RustusError (FS × String) :=
  match s.data_file_path sub fs file_info.id with
  | .error e => .error e
  | .ok (fs1, file_path) =>
    if fs1.pathExists file_path then .error (.ioError .alreadyExists)
    else .ok ({ fs1 with files := (file_path, []) :: fs1.files }, file_path)

/-- `NullStorage::concat_files`: fail with `FileNotFound` when the record
has no storage path; otherwise succeed.  The parts argument is bound with
an underscore in the source and never used; no filesystem effect. -/
def NullStorage.concat_files (fs : FS) (file_info : FileInfo)
    (_parts_info : List FileInfo) : Except RustusError (FS × Unit) :=
  match file_info.path with
  | none => .error .FileNotFound
  | some _ => .ok (fs, ())

/-- `NullStorage::remove_file`: fail with `FileNotFound` when the record has
no storage path or when nothing exists at the recorded path; otherwise
delete the file, mapping a removal I/O failure (the path names a directory)
to `UnableToRemove`. -/
def NullStorage.remove_file (fs : FS) (file_info : FileInfo) :
    Except RustusError (FS × Unit) :=
  match file_info.path with
  | none => .error .FileNotFound
  | some path =>
    if fs.pathExists path then
      if fs.isFile path then .ok (fs.removeFile path, ())
      else .error (.UnableToRemove path)
    else .error .FileNotFound

/-- Protocol extensions the capability endpoint can advertise (modelled
from the spec's capability list: creation, concatenation, termination,
checksum). -/
inductive Extensions where
  | Creation
  | Concatenation
  | Termination
  | Checksum
  deriving DecidableEq

/-- `Display` rendering of an extension name. -/
def Extensions.to_string : Extensions → String
  | .Creation => "creation"
  | .Concatenation => "concatenation"
  | .Termination => "termination"
  | .Checksum => "checksum"

/-- Server configuration: the list of enabled protocol extensions. -/
structure Config where
  tus_extensions : List Extensions
  deriving DecidableEq

/-- Modelled from the spec: `Config::extensions_vec` is not under `src/`;
the spec says the capability list is the set of enabled protocol
capabilities rendered order-stably, so it is the configured list itself. -/
def Config.extensions_vec (c : Config) : List Extensions := c.tus_extensions

/-- Application state handed to the handler. -/
structure State where
  config : Config

/-- An HTTP response: status code and headers, in insertion order. -/
structure HttpResponse where
  status : Nat
  headers : List (String × String)
  deriving DecidableEq

/-- `server_info`: join the rendered enabled extensions with commas into
the `Tus-Extension` header, and add the fixed `Tus-Checksum-Algorithm`
header exactly when the checksum extension is enabled (the `hashers`
feature is taken as compiled in). -/
def server_info (state : State) : HttpResponse :=
  let ext_str :=
    String.intercalate "," (state.config.extensions_vec.map Extensions.to_string)
  let base := [("Tus-Extension", ext_str)]
  let headers :=
    if Extensions.Checksum ∈ state.config.tus_extensions then
      base ++ [("Tus-Checksum-Algorithm", "md5,sha1,sha256,sha512")]
    else base
  { status := 200, headers := headers }

/-- Looking a key up after filtering out every entry with that key yields
nothing: the model of `remove_file` really removes the file. -/
theorem lookup_filter_ne (p : String) (l : List (String × List Nat)) :
    (l.filter (fun e => e.1 != p)).lookup p = none := by
  induction l with
  | nil => rfl
  | cons e es ih =>
    by_cases h : e.1 = p
    · have hb : (e.1 != p) = false := by simp [h]
      simp [List.filter_cons, hb, ih]
    · have hb : (e.1 != p) = true := by simp [h]
      have hb2 : (p == e.1) = false := by
        simp only [beq_eq_false_iff_ne, ne_eq]
        exact fun hh => h hh.symm
      simp [List.filter_cons, hb, List.lookup, hb2, ih]

/-- C1 (amended): on a record whose `storage_path` is unset, `concat_files`,
`get_contents` and `remove_file` fail with the `FileNotFound` precondition
error — distinct from any I/O or removal error — and never succeed; but
`add_bytes` never inspects the path and succeeds unconditionally. -/
theorem c1_precondition_errors (fs : FS) (fi : FileInfo)
    (bytes : List Nat) (parts : List FileInfo) (h : fi.path = none) :
    NullStorage.concat_files fs fi parts = .error .FileNotFound ∧
    NullStorage.get_contents fs fi = .error .FileNotFound ∧
    NullStorage.remove_file fs fi = .error .FileNotFound ∧
    (∀ p k, RustusError.FileNotFound ≠ .UnableToRemove p ∧
            RustusError.FileNotFound ≠ .ioError k) ∧
    NullStorage.add_bytes fs fi bytes = .ok (fs, ()) := by
  refine ⟨?_, ?_, ?_, ?_, rfl⟩
  · unfold NullStorage.concat_files
    rw [h]
  · unfold NullStorage.get_contents
    rw [h]
  · unfold NullStorage.remove_file
    rw [h]
  · intro p k
    exact ⟨fun hx => RustusError.noConfusion hx,
           fun hx => RustusError.noConfusion hx⟩

/-- C1 counterexample: `add_bytes` on a record with no storage path returns
success, not a precondition error, refuting the claim for the append
operation at this concrete input. -/
theorem c1_counterexample :
    NullStorage.add_bytes ⟨[], [], []⟩ ⟨"u1", none, "file.txt"⟩ [1, 2, 3] =
      .ok (⟨[], [], []⟩, ()) := rfl

/-- C1 witness. -/
theorem c1_witness :
    NullStorage.concat_files ⟨[], [], []⟩ ⟨"u", none, "f"⟩ [] =
      .error .FileNotFound ∧
    NullStorage.get_contents ⟨[], [], []⟩ ⟨"u", none, "f"⟩ =
      .error .FileNotFound ∧
    NullStorage.remove_file ⟨[], [], []⟩ ⟨"u", none, "f"⟩ =
      .error .FileNotFound ∧
    RustusError.FileNotFound ≠ .ioError .notFound ∧
    NullStorage.add_bytes ⟨[], [], []⟩ ⟨"u", none, "f"⟩ [7] =
      .ok (⟨[], [], []⟩, ()) := by
  have h := c1_precondition_errors ⟨[], [], []⟩ ⟨"u", none, "f"⟩ [7] [] rfl
  exact ⟨h.1, h.2.1, h.2.2.1, (h.2.2.2.1 "" .notFound).2, h.2.2.2.2⟩

/-- C8: on every record whose storage path is set, `get_contents` succeeds
and the response carries a content-disposition header derived from the
record's logical filename. -/
theorem c8_disposition (fs : FS) (fi : FileInfo) (p : String)
    (h : fi.path = some p) :
    NullStorage.get_contents fs fi =
      .ok (fs, { body := [],
                 headers := [("Content-Disposition",
                              generate_disposition fi.get_filename)] }) := by
  unfold NullStorage.get_contents
  rw [h]

/-- C8 witness. -/
theorem c8_witness :
    NullStorage.get_contents ⟨[], [], []⟩ ⟨"u", some "/p", "report.pdf"⟩ =
      .ok (⟨[], [], []⟩,
           ⟨[], [("Content-Disposition",
                  "attachment; filename=report.pdf")]⟩) := by
  exact c8_disposition ⟨[], [], []⟩ ⟨"u", some "/p", "report.pdf"⟩ "/p" rfl

/-- C9: `concat_files` is entirely independent of the parts argument — any
two parts lists give the same result — succeeding exactly when the record's
storage path is set (returning the state unchanged) and failing with
`FileNotFound` when it is unset. -/
theorem c9_concat_parts_independent (fs : FS) (fi : FileInfo)
    (p1 p2 : List FileInfo) :
    NullStorage.concat_files fs fi p1 = NullStorage.concat_files fs fi p2 ∧
    (fi.path = none →
      NullStorage.concat_files fs fi p1 = .error .FileNotFound) ∧
    (∀ p, fi.path = some p →
      NullStorage.concat_files fs fi p1 = .ok (fs, ())) := by
  unfold NullStorage.concat_files
  exact ⟨rfl, fun h => by rw [h], fun p h => by rw [h]⟩

/-- C9 witness. -/
theorem c9_witness :
    NullStorage.concat_files ⟨[], [], []⟩ ⟨"u", some "/p", "f"⟩
        [⟨"a", some "/a", "a"⟩] =
      NullStorage.concat_files ⟨[], [], []⟩ ⟨"u", some "/p", "f"⟩ [] ∧
    NullStorage.concat_files ⟨[], [], []⟩ ⟨"u", some "/p", "f"⟩
        [⟨"a", some "/a", "a"⟩] =
      .ok (⟨[], [], []⟩, ()) := by
  have h := c9_concat_parts_independent ⟨[], [], []⟩ ⟨"u", some "/p", "f"⟩
    [⟨"a", some "/a", "a"⟩] []
  exact ⟨h.1, h.2.2 "/p" rfl⟩

/-- C10: every successful `get_contents` call returns an empty body and
leaves the filesystem state unchanged, whatever was appended before. -/
theorem c10_get_contents_frame (fs fs1 : FS) (fi : FileInfo) (r : Response)
    (h : NullStorage.get_contents fs fi = .ok (fs1, r)) :
    r.body = [] ∧ fs1 = fs := by
  unfold NullStorage.get_contents at h
  cases hp : fi.path with
  | none =>
    rw [hp] at h
    exact Except.noConfusion h
  | some p =>
    rw [hp] at h
    simp only [Except.ok.injEq, Prod.mk.injEq] at h
    obtain ⟨h1, h2⟩ := h
    subst h1
    subst h2
    exact ⟨rfl, rfl⟩

/-- C10 witness. -/
theorem c10_witness :
    Response.body ⟨[], [("Content-Disposition", "attachment; filename=f")]⟩ =
      [] ∧
    (⟨["d"], [("/p", [5])], []⟩ : FS) = ⟨["d"], [("/p", [5])], []⟩ := by
  exact c10_get_contents_frame ⟨["d"], [("/p", [5])], []⟩
    ⟨["d"], [("/p", [5])], []⟩ ⟨"u", some "/p", "f"⟩
    ⟨[], [("Content-Disposition", "attachment; filename=f")]⟩ rfl

/-- C5: whenever the OS can canonicalize the base data directory (to `c`,
as recorded in the state at the moment of the call — the result is read
from the current state on every call, never cached), the resolved storage
path is exactly `c`, joined with the templated segment, joined with the
upload id, in that order, after recursively creating the directory part. -/
theorem c5_data_file_path (s : NullStorage) (sub : String → String)
    (fs : FS) (file_id c : String)
    (h : fs.canon.lookup s.data_dir = some c) :
    s.data_file_path sub fs file_id =
      .ok (fs.mkdirRecursive (pathJoin c (sub s.dir_struct)),
           pathJoin (pathJoin c (sub s.dir_struct)) file_id) := by
  unfold NullStorage.data_file_path FS.canonicalize
  rw [h]

/-- C5 witness. -/
theorem c5_witness :
    NullStorage.data_file_path ⟨"base", "t"⟩ (fun _ => "seg")
      ⟨[], [], [("base", "/abs")]⟩ "id1" =
      .ok (⟨["/abs/seg"], [], [("base", "/abs")]⟩, "/abs/seg/id1") := by
  exact c5_data_file_path ⟨"base", "t"⟩ (fun _ => "seg")
    ⟨[], [], [("base", "/abs")]⟩ "id1" "/abs" rfl

/-- C2: `create_file` is an exclusive create — whenever any object already
exists at the resolved path it fails with an `AlreadyExists` I/O error,
and whenever the path is free it succeeds, producing a brand-new empty
file there while leaving the contents of every other file untouched (no
overwrite, no truncation). -/
theorem c2_create_exclusive (s : NullStorage) (sub : String → String)
    (fs fs1 : FS) (fi : FileInfo) (p : String)
    (hdfp : s.data_file_path sub fs fi.id = .ok (fs1, p)) :
    (fs1.pathExists p = true →
      s.create_file sub fs fi = .error (.ioError .alreadyExists)) ∧
    (fs1.pathExists p = false →
      s.create_file sub fs fi =
        .ok ({ fs1 with files := (p, []) :: fs1.files }, p) ∧
      fs1.fileContents p = none ∧
      FS.fileContents { fs1 with files := (p, []) :: fs1.files } p =
        some [] ∧
      (∀ q, q ≠ p →
        FS.fileContents { fs1 with files := (p, []) :: fs1.files } q =
          fs1.fileContents q)) := by
  unfold NullStorage.create_file
  rw [hdfp]
  constructor
  · intro h
    simp [h]
  · intro h
    refine ⟨by simp [h], ?_, ?_, ?_⟩
    · unfold FS.pathExists FS.isFile at h
      cases hc : fs1.fileContents p with
      | none => rfl
      | some v =>
        rw [hc] at h
        simp at h
    · simp [FS.fileContents, List.lookup]
    · intro q hq
      have hqp : (q == p) = false := by
        simp only [beq_eq_false_iff_ne, ne_eq]
        exact hq
      simp [FS.fileContents, List.lookup, hqp]

/-- C2 witness. -/
theorem c2_witness :
    NullStorage.create_file ⟨"base", "t"⟩ (fun _ => "seg")
      ⟨[], [], [("base", "/abs")]⟩ ⟨"u", none, "f"⟩ =
      .ok (⟨["/abs/seg"], [("/abs/seg/u", [])], [("base", "/abs")]⟩,
           "/abs/seg/u") ∧
    NullStorage.create_file ⟨"base", "t"⟩ (fun _ => "seg")
      ⟨["/abs/seg"], [("/abs/seg/u", [3])], [("base", "/abs")]⟩
      ⟨"u", none, "f"⟩ =
      .error (.ioError .alreadyExists) := by
  have hfree := (c2_create_exclusive ⟨"base", "t"⟩ (fun _ => "seg")
    ⟨[], [], [("base", "/abs")]⟩ ⟨["/abs/seg"], [], [("base", "/abs")]⟩
    ⟨"u", none, "f"⟩ "/abs/seg/u" rfl).2 rfl
  have htaken := (c2_create_exclusive ⟨"base", "t"⟩ (fun _ => "seg")
    ⟨["/abs/seg"], [("/abs/seg/u", [3])], [("base", "/abs")]⟩
    ⟨["/abs/seg"], [("/abs/seg/u", [3])], [("base", "/abs")]⟩
    ⟨"u", none, "f"⟩ "/abs/seg/u" rfl).1 rfl
  exact ⟨hfree.1, htaken⟩

/-- C3 (amended): on a record whose storage path is set, removing when the
backing file is absent yields the `FileNotFound` error; removing an
existing file succeeds and deletes it, after which a second remove fails
with `FileNotFound` — but a subsequent `get_contents` still succeeds,
because it checks only that the record's storage path is set, never the
disk. -/
theorem c3_remove_semantics (fs : FS) (fi : FileInfo) (p : String)
    (hp : fi.path = some p) (hd : fs.isDir p = false) :
    (fs.pathExists p = false →
      NullStorage.remove_file fs fi = .error .FileNotFound) ∧
    (fs.isFile p = true →
      NullStorage.remove_file fs fi = .ok (fs.removeFile p, ()) ∧
      NullStorage.remove_file (fs.removeFile p) fi = .error .FileNotFound ∧
      NullStorage.get_contents (fs.removeFile p) fi =
        .ok (fs.removeFile p,
             ⟨[], [("Content-Disposition",
                    generate_disposition fi.get_filename)]⟩)) := by
  constructor
  · intro h
    unfold NullStorage.remove_file
    rw [hp]
    simp [h]
  · intro hf
    have hex : fs.pathExists p = true := by
      unfold FS.pathExists
      rw [hf]
      rfl
    have hgone : (fs.removeFile p).isFile p = false := by
      unfold FS.isFile FS.fileContents FS.removeFile
      simp [lookup_filter_ne]
    have hgonex : (fs.removeFile p).pathExists p = false := by
      unfold FS.pathExists
      rw [hgone]
      unfold FS.isDir FS.removeFile
      unfold FS.isDir at hd
      simpa using hd
    refine ⟨?_, ?_, ?_⟩
    · unfold NullStorage.remove_file
      rw [hp]
      simp [hex, hf]
    · unfold NullStorage.remove_file
      rw [hp]
      simp [hgonex]
    · unfold NullStorage.get_contents
      rw [hp]

/-- C3 counterexample: after a successful remove, `get_contents` on the
very same record succeeds (with an empty-body response) instead of
failing, refuting the claim that a subsequent fetch fails. -/
theorem c3_counterexample :
    NullStorage.remove_file ⟨[], [("/d/f", [])], []⟩ ⟨"f", some "/d/f", "f"⟩ =
      .ok (⟨[], [], []⟩, ()) ∧
    NullStorage.get_contents ⟨[], [], []⟩ ⟨"f", some "/d/f", "f"⟩ =
      .ok (⟨[], [], []⟩,
           ⟨[], [("Content-Disposition", "attachment; filename=f")]⟩) := by
  exact ⟨rfl, rfl⟩

/-- C3 witness. -/
theorem c3_witness :
    NullStorage.remove_file ⟨[], [], []⟩ ⟨"g", some "/d/g", "g"⟩ =
      .error .FileNotFound ∧
    NullStorage.remove_file ⟨[], [("/d/g", [7])], []⟩
        ⟨"g", some "/d/g", "g"⟩ =
      .ok (⟨[], [], []⟩, ()) ∧
    NullStorage.remove_file ⟨[], [], []⟩ ⟨"g", some "/d/g", "g"⟩ =
      .error .FileNotFound := by
  have habsent := (c3_remove_semantics ⟨[], [], []⟩ ⟨"g", some "/d/g", "g"⟩
    "/d/g" rfl rfl).1 rfl
  have hpresent := (c3_remove_semantics ⟨[], [("/d/g", [7])], []⟩
    ⟨"g", some "/d/g", "g"⟩ "/d/g" rfl rfl).2 rfl
  exact ⟨habsent, hpresent.1, hpresent.2.1⟩

/-- C6: after a successful `create_file` resolving to path `p`, appending
any payload to the updated record succeeds without changing the state,
fetching for delivery succeeds — yet the file's stored contents are empty,
so the appended bytes are not retrievable: the discard backend silently
drops them. -/
theorem c6_discard_roundtrip (s : NullStorage) (sub : String → String)
    (fs fs2 : FS) (fi : FileInfo) (p : String) (bytes : List Nat)
    (hc : s.create_file sub fs fi = .ok (fs2, p)) :
    NullStorage.add_bytes fs2 { fi with path := some p } bytes =
      .ok (fs2, ()) ∧
    NullStorage.get_contents fs2 { fi with path := some p } =
      .ok (fs2, ⟨[], [("Content-Disposition",
                       generate_disposition fi.get_filename)]⟩) ∧
    fs2.fileContents p = some [] := by
  refine ⟨rfl, rfl, ?_⟩
  unfold NullStorage.create_file at hc
  cases hd : s.data_file_path sub fs fi.id with
  | error e =>
    rw [hd] at hc
    exact Except.noConfusion hc
  | ok r =>
    rw [hd] at hc
    obtain ⟨fs1, fp⟩ := r
    by_cases hex : fs1.pathExists fp = true
    · simp [hex] at hc
    · simp only [Bool.not_eq_true] at hex
      simp only [hex, Bool.false_eq_true, if_false, Except.ok.injEq,
        Prod.mk.injEq] at hc
      obtain ⟨h1, h2⟩ := hc
      subst h2
      rw [← h1]
      simp [FS.fileContents, List.lookup]

/-- C6 witness. -/
theorem c6_witness :
    NullStorage.add_bytes
        ⟨["/abs/seg"], [("/abs/seg/u", [])], [("base", "/abs")]⟩
        ⟨"u", some "/abs/seg/u", "f"⟩ [1, 2, 3] =
      .ok (⟨["/abs/seg"], [("/abs/seg/u", [])], [("base", "/abs")]⟩, ()) ∧
    NullStorage.get_contents
        ⟨["/abs/seg"], [("/abs/seg/u", [])], [("base", "/abs")]⟩
        ⟨"u", some "/abs/seg/u", "f"⟩ =
      .ok (⟨["/abs/seg"], [("/abs/seg/u", [])], [("base", "/abs")]⟩,
           ⟨[], [("Content-Disposition", "attachment; filename=f")]⟩) ∧
    FS.fileContents ⟨["/abs/seg"], [("/abs/seg/u", [])], [("base", "/abs")]⟩
        "/abs/seg/u" =
      some [] := by
  exact c6_discard_roundtrip ⟨"base", "t"⟩ (fun _ => "seg")
    ⟨[], [], [("base", "/abs")]⟩
    ⟨["/abs/seg"], [("/abs/seg/u", [])], [("base", "/abs")]⟩
    ⟨"u", none, "f"⟩ "/abs/seg/u" [1, 2, 3] rfl

/-- C7: `prepare` never returns an error; when the base data directory
already exists it changes nothing; and it is idempotent — a second call on
the state produced by a first call returns that state unchanged. -/
theorem c7_prepare_idempotent (s : NullStorage) (fs : FS) :
    (∀ e, s.prepare fs ≠ .error e) ∧
    (fs.pathExists s.data_dir = true → s.prepare fs = .ok (fs, ())) ∧
    (∀ fs1 u, s.prepare fs = .ok (fs1, u) →
      s.prepare fs1 = .ok (fs1, ())) := by
  refine ⟨?_, ?_, ?_⟩
  · intro e
    unfold NullStorage.prepare
    by_cases h : fs.pathExists s.data_dir = true <;> simp [h]
  · intro h
    unfold NullStorage.prepare
    simp [h]
  · intro fs1 u hok
    unfold NullStorage.prepare at hok
    by_cases h : fs.pathExists s.data_dir = true
    · simp only [h, if_true, Except.ok.injEq, Prod.mk.injEq] at hok
      obtain ⟨h1, _⟩ := hok
      subst h1
      unfold NullStorage.prepare
      simp [h]
    · simp only [Bool.not_eq_true] at h
      simp only [h, Bool.false_eq_true, if_false, Except.ok.injEq,
        Prod.mk.injEq] at hok
      obtain ⟨h1, _⟩ := hok
      subst h1
      have hx : FS.pathExists { fs with dirs := s.data_dir :: fs.dirs }
          s.data_dir = true := by
        unfold FS.pathExists FS.isDir
        simp [List.contains_cons]
      unfold NullStorage.prepare
      simp [hx]

/-- C7 witness. -/
theorem c7_witness :
    NullStorage.prepare ⟨"d", "t"⟩ ⟨[], [], []⟩ =
      .ok (⟨["d"], [], []⟩, ()) ∧
    NullStorage.prepare ⟨"d", "t"⟩ ⟨["d"], [], []⟩ =
      .ok (⟨["d"], [], []⟩, ()) := by
  have h := c7_prepare_idempotent ⟨"d", "t"⟩ ⟨[], [], []⟩
  have h1 : NullStorage.prepare ⟨"d", "t"⟩ ⟨[], [], []⟩ =
      .ok (⟨["d"], [], []⟩, ()) := rfl
  exact ⟨h1, h.2.2 ⟨["d"], [], []⟩ () h1⟩

/-- C4: the capability response's first header is `Tus-Extension` holding
the enabled extensions rendered in configuration order and joined with
commas, and the fixed `Tus-Checksum-Algorithm` header with value
`md5,sha1,sha256,sha512` is present if and only if the checksum extension
is enabled. -/
theorem c4_server_info (state : State) :
    (server_info state).headers.head? =
      some ("Tus-Extension",
        String.intercalate ","
          (state.config.extensions_vec.map Extensions.to_string)) ∧
    ((("Tus-Checksum-Algorithm", "md5,sha1,sha256,sha512") ∈
        (server_info state).headers) ↔
      Extensions.Checksum ∈ state.config.tus_extensions) := by
  unfold server_info
  by_cases h : Extensions.Checksum ∈ state.config.tus_extensions
  · simp [h]
  · simp [h]

/-- C4 witness. -/
theorem c4_witness :
    (server_info ⟨⟨[.Creation, .Termination]⟩⟩).headers.head? =
      some ("Tus-Extension", "creation,termination") ∧
    ¬(("Tus-Checksum-Algorithm", "md5,sha1,sha256,sha512") ∈
        (server_info ⟨⟨[.Creation, .Termination]⟩⟩).headers) ∧
    (("Tus-Checksum-Algorithm", "md5,sha1,sha256,sha512") ∈
        (server_info ⟨⟨[.Creation, .Checksum]⟩⟩).headers) := by
  have h1 := c4_server_info ⟨⟨[.Creation, .Termination]⟩⟩
  have h2 := c4_server_info ⟨⟨[.Creation, .Checksum]⟩⟩
  refine ⟨h1.1, fun hm => ?_, h2.2.mpr (by simp)⟩
  have := h1.2.mp hm
  simp at this

end Rustus
